import Mathlib

/-!
Verification development for the DSA signature-verification core
(`dsa/src/verifying_key.rs`).

The big-integer engine (`crypto_bigint`: `BoxedUint`, Montgomery forms,
`inv_mod`, byte conversion) is consumed by the code as a capability; it is
modelled here over `ℕ` with explicit `%` where the code reduces modulo a
value.  A Rust `unwrap()` that can fail (e.g. `Odd::new(x).unwrap()` on an
even `x`, `NonZero::new(0).unwrap()`) is modelled as an explicit `panic`
outcome, so that crash behaviour is visible in the theorems.
-/

/-- `panic`-or-value outcome: models a Rust computation that may `panic!`
(via a failing `unwrap`) instead of returning. -/
inductive PanicOr (α : Type) where
  | panic
  | ok (val : α)
deriving DecidableEq, Repr

/-- Big-endian byte-slice to natural number; models
`BoxedUint::from_be_slice` (value semantics of the bigint capability). -/
def beToNat : List ℕ → ℕ
  | [] => 0
  | b :: rest => b * 256 ^ rest.length + beToNat rest

/-- Fuel-driven helper for minimal big-endian byte representation. -/
def natToBEAux : ℕ → ℕ → List ℕ
  | 0, _ => []
  | fuel + 1, n => if n = 0 then [] else natToBEAux fuel (n / 256) ++ [n % 256]

/-- Minimal big-endian bytes of `n` (empty for `0`); models the canonical
byte string of a bigint after leading zeroes are stripped. -/
def natToBE (n : ℕ) : List ℕ := natToBEAux n n

/-- Fuel-driven helper for the bit length. -/
def bitlenAux : ℕ → ℕ → ℕ
  | 0, _ => 0
  | fuel + 1, n => if n = 0 then 0 else bitlenAux fuel (n / 2) + 1

/-- Bit length of `n` (`0` for `0`); models `BoxedUint::bits`. -/
def bitlen (n : ℕ) : ℕ := bitlenAux n n

/-- Modular inverse capability: models `crypto_bigint`'s `inv_mod`.
Returns `some w` with `s * w ≡ 1 (mod q)` exactly when `gcd s q = 1`,
`none` otherwise (the `CtOption` with `is_some = false`). -/
def inv_mod (s q : ℕ) : Option ℕ :=
  if Nat.gcd s q = 1 then some (((List.range q).find? fun w => s * w % q == 1).getD 0)
  else none

/-- DSA common components `(p, q, g)`; mirrors the `Components` struct
(fields are `NonZero<BoxedUint>` values, modelled as naturals). -/
structure Components where
  p : ℕ
  q : ℕ
  g : ℕ
deriving DecidableEq, Repr

/-- DSA signature `(r, s)`; mirrors the `Signature` struct.  Per the data
model both components are positive integers (`NonZero<BoxedUint>` in the
code), so zero values are unrepresentable. -/
structure Signature where
  r : ℕ
  s : ℕ
  r_pos : 0 < r
  s_pos : 0 < s

/-- DSA public key: common components plus public component `y`;
mirrors the `VerifyingKey` struct. -/
structure VerifyingKey where
  components : Components
  y : ℕ
deriving DecidableEq, Repr

/-- `VerifyingKey::from_components`.  Mirrors the source: it first builds
Montgomery parameters for modulus `p` via `Odd::new(p).unwrap()` — a panic
when `p` is even — then rejects (`signature::Error`, modelled as
`Except.error ()`) iff `y < 2` or `yᵠ mod p ≠ 1` computed on the reduced
Montgomery form, and otherwise stores `components` and `y` unchanged. -/
def from_components (components : Components) (y : ℕ) :
    PanicOr (Except Unit VerifyingKey) :=
  if components.p % 2 = 0 then .panic
  else if y < 2 ∨ (y % components.p) ^ components.q % components.p ≠ 1 then
    .ok (.error ())
  else .ok (.ok { components := components, y := y })

/-- `VerifyingKey::verify_prehashed`, translated line by line.  Note the
source builds `BoxedMontyParams` with moduli `u1` and `u2`
(`Odd::new(u1).unwrap()` — panic when even) and raises the forms to the
exponent `p`, producing `v = ((g^p mod u1) * (y^p mod u2) mod p) mod q`. -/
def verify_prehashed (key : VerifyingKey) (hash : List ℕ) (sig : Signature) :
    PanicOr (Option Bool) :=
  let p := key.components.p
  let q := key.components.q
  let g := key.components.g
  let r := sig.r
  let s := sig.s
  let y := key.y
  if q ≤ r ∨ q ≤ s then .ok (some false)
  else
    match inv_mod s q with
    | none => .ok none
    | some w =>
      let n := bitlen q / 8
      let block_size := hash.length
      let z_len := min n block_size
      let z := beToNat (hash.take z_len)
      let u1 := z * w % q
      let u2 := r * w % q
      if u1 % 2 = 0 then .panic
      else if u2 % 2 = 0 then .panic
      else
        let v := ((g % u1) ^ p % u1) * ((y % u2) ^ p % u2) % p % q
        .ok (some (v == r))

/-- `PrehashVerifier::verify_prehash`: `Some(true)` maps to `Ok(())`, any
other outcome to `Err(signature::Error)`; a panic propagates. -/
def verify_prehash (key : VerifyingKey) (prehash : List ℕ) (sig : Signature) :
    PanicOr (Except Unit Unit) :=
  match verify_prehashed key prehash sig with
  | .panic => .panic
  | .ok (some true) => .ok (.ok ())
  | .ok _ => .ok (.error ())

/-- `DigestVerifier::verify_digest`: the digest object is modelled by its
finalized byte string; `None` from `verify_prehashed` becomes an error via
`ok_or_else`, `false` becomes an error, `true` becomes `Ok(())`. -/
def verify_digest (key : VerifyingKey) (digestBytes : List ℕ) (sig : Signature) :
    PanicOr (Except Unit Unit) :=
  match verify_prehashed key digestBytes sig with
  | .panic => .panic
  | .ok none => .ok (.error ())
  | .ok (some is_valid) => if !is_valid then .ok (.error ()) else .ok (.ok ())

/-- `Verifier::verify`: hashes the raw message with SHA-256
(`Sha256::new_with_prefix(msg)`) and delegates to `verify_digest`.  The hash
function is an external capability, passed here as a parameter. -/
def verify (sha256 : List ℕ → List ℕ) (key : VerifyingKey) (msg : List ℕ)
    (sig : Signature) : PanicOr (Except Unit Unit) :=
  verify_digest key (sha256 msg) sig

/-- DER length field: short form below 128, long form `0x80 + k` followed by
`k` big-endian length bytes otherwise.  Models the external DER layer. -/
def derLen (n : ℕ) : List ℕ :=
  if n < 128 then [n] else (128 + (natToBE n).length) :: natToBE n

/-- Parse a DER length field, returning the length and remaining bytes. -/
def parseLen : List ℕ → Option (ℕ × List ℕ)
  | [] => none
  | b :: rest =>
    if b < 128 then some (b, rest)
    else
      let m := b - 128
      if rest.length < m then none
      else some (beToNat (rest.take m), rest.drop m)

/-- Content octets of a DER unsigned INTEGER: minimal big-endian bytes, a
zero byte for `0`, and a leading zero byte when the high bit is set. -/
def derIntContent (n : ℕ) : List ℕ :=
  if n = 0 then [0]
  else if 128 ≤ (natToBE n).headD 0 then 0 :: natToBE n else natToBE n

/-- DER encoding of an unsigned INTEGER (tag `0x02`); models
`UintRef::to_der` of the external der layer. -/
def derInt (n : ℕ) : List ℕ :=
  2 :: (derLen (derIntContent n).length ++ derIntContent n)

/-- Parse a DER INTEGER as an unsigned value, returning the value and the
remaining bytes; models `UintRef` decoding followed by
`BoxedUint::from_be_slice` on its content. -/
def parseInt : List ℕ → Option (ℕ × List ℕ)
  | [] => none
  | t :: rest =>
    if t = 2 then
      match parseLen rest with
      | some (L, rest2) =>
        if rest2.length < L then none
        else some (beToNat (rest2.take L), rest2.drop L)
      | none => none
    else none

/-- Modelled from the spec: `Components::to_der` is not under `src/`; per
§4.4 the parameters payload is the DER encoding of `(p, q, g)` as a
SEQUENCE (tag `0x30`) of three unsigned INTEGERs. -/
def componentsToDer (c : Components) : List ℕ :=
  let payload := derInt c.p ++ derInt c.q ++ derInt c.g
  48 :: (derLen payload.length ++ payload)

/-- Modelled from the spec: decoding of the parameters payload
(`parameters.decode_as::<Components>()` is not under `src/`); inverse of
`componentsToDer`, requiring the whole input to be consumed. -/
def parseComponents (bytes : List ℕ) : Option Components :=
  match bytes with
  | [] => none
  | t :: rest =>
    if t = 48 then
      match parseLen rest with
      | some (L, rest2) =>
        if rest2.length = L then
          match parseInt rest2 with
          | some (pv, r1) =>
            match parseInt r1 with
            | some (qv, r2) =>
              match parseInt r2 with
              | some (gv, r3) => if r3 = [] then some ⟨pv, qv, gv⟩ else none
              | none => none
            | none => none
          | none => none
        else none
      | none => none
    else none

/-- The DSA object identifier (`crate::OID`, 1.2.840.10040.4.1); the exact
arc values are irrelevant, only identity matters. -/
def OID : List ℕ := [1, 2, 840, 10040, 4, 1]

/-- The `SubjectPublicKeyInfo` container as the structure the source reads
and writes: algorithm OID, parameters payload (`AnyRef` DER bytes), and the
BIT STRING payload (`as_bytes`, `none` when the framing is broken). -/
structure SpkiRef where
  algorithmOid : List ℕ
  algorithmParameters : Option (List ℕ)
  subjectPublicKey : Option (List ℕ)
deriving DecidableEq, Repr

/-- `spki::Error` classes reachable from the decode path in the source. -/
inductive SpkiError where
  | oidUnknown
  | parametersMissing
  | asn1
  | keyMalformed
deriving DecidableEq, Repr

/-- `EncodePublicKey::to_public_key_der`: container with the DSA OID, the
DER-encoded components as parameters, and the DER INTEGER `y` inside a BIT
STRING with zero unused bits. -/
def to_public_key_der (key : VerifyingKey) : SpkiRef :=
  { algorithmOid := OID
    algorithmParameters := some (componentsToDer key.components)
    subjectPublicKey := some (derInt key.y) }

/-- `TryFrom<SubjectPublicKeyInfoRef> for VerifyingKey`: assert the DSA
OID, decode the parameters as components, decode the BIT STRING payload as
a DER INTEGER `y` (`NonZero::new(..).unwrap()` — panic when `y = 0`), then
run `from_components`, mapping its error to `KeyMalformed`. -/
def try_from (spki : SpkiRef) : PanicOr (Except SpkiError VerifyingKey) :=
  if spki.algorithmOid ≠ OID then .ok (.error .oidUnknown)
  else
    match spki.algorithmParameters with
    | none => .ok (.error .parametersMissing)
    | some paramBytes =>
      match parseComponents paramBytes with
      | none => .ok (.error .asn1)
      | some components =>
        match spki.subjectPublicKey with
        | none => .ok (.error .keyMalformed)
        | some pkBytes =>
          match parseInt pkBytes with
          | some (yv, []) =>
            if yv = 0 then .panic
            else
              match from_components components yv with
              | .panic => .panic
              | .ok (.error _) => .ok (.error .keyMalformed)
              | .ok (.ok key) => .ok (.ok key)
          | some (_, _ :: _) => .ok (.error .asn1)
          | none => .ok (.error .asn1)

/-- Modelled from the spec: §4.3 steps 2–7 of the classical DSA
verification equations — range checks, `w = s⁻¹ mod q`, byte-truncated `z`,
`u1 = z·w mod q`, `u2 = r·w mod q`,
`v = ((g^u1 mod p) * (y^u2 mod p) mod p) mod q`, valid iff `v = r`. -/
def spec_verify (key : VerifyingKey) (hash : List ℕ) (sig : Signature) : Bool :=
  let p := key.components.p
  let q := key.components.q
  let g := key.components.g
  let y := key.y
  if q ≤ sig.r ∨ q ≤ sig.s then false
  else
    match inv_mod sig.s q with
    | none => false
    | some w =>
      let z := beToNat (hash.take (min (bitlen q / 8) hash.length))
      let u1 := z * w % q
      let u2 := sig.r * w % q
      let v := (g ^ u1 % p) * (y ^ u2 % p) % p % q
      v == sig.r

/-- Signature `(113, 1)`, used as a concrete verification input. -/
def sig113 : Signature := ⟨113, 1, by decide, by decide⟩

/-- Signature `(5, 3)`, used as a concrete verification input. -/
def sig53 : Signature := ⟨5, 3, by decide, by decide⟩

/-- Signature `(11, 3)`, used as a concrete verification input. -/
def sig11_3 : Signature := ⟨11, 3, by decide, by decide⟩

theorem beToNat_append_single (l : List ℕ) (b : ℕ) :
    beToNat (l ++ [b]) = beToNat l * 256 + b := by
  induction l with
  | nil => simp [beToNat]
  | cons x l ih =>
    simp only [List.cons_append, beToNat, List.append_eq, List.length_append,
      List.length_cons, List.length_nil, ih]
    ring

theorem beToNat_natToBEAux (fuel : ℕ) :
    ∀ n, n ≤ fuel → beToNat (natToBEAux fuel n) = n := by
  induction fuel with
  | zero => intro n hn; interval_cases n; simp [natToBEAux, beToNat]
  | succ fuel ih =>
    intro n hn
    by_cases h0 : n = 0
    · simp [natToBEAux, h0, beToNat]
    · have hdiv : n / 256 ≤ fuel := by
        have : n / 256 < n := Nat.div_lt_self (Nat.pos_of_ne_zero h0) (by norm_num)
        omega
      simp only [natToBEAux, h0, if_false, beToNat_append_single, ih _ hdiv]
      omega

theorem beToNat_natToBE (n : ℕ) : beToNat (natToBE n) = n :=
  beToNat_natToBEAux n n le_rfl

theorem parseLen_derLen (n : ℕ) (rest : List ℕ) :
    parseLen (derLen n ++ rest) = some (n, rest) := by
  by_cases h : n < 128
  · simp [derLen, parseLen, h]
  · simp only [derLen, h, if_false, List.cons_append, parseLen]
    rw [if_neg (by omega)]
    have hm : 128 + (natToBE n).length - 128 = (natToBE n).length := by omega
    rw [if_neg (by simp [hm, List.length_append])]
    simp [hm, List.take_left, List.drop_left, beToNat_natToBE]

theorem beToNat_derIntContent (n : ℕ) : beToNat (derIntContent n) = n := by
  rw [derIntContent]
  split_ifs with h0 hs
  · simp [h0, beToNat]
  · simp [beToNat, beToNat_natToBE]
  · exact beToNat_natToBE n

theorem parseInt_derInt (n : ℕ) (rest : List ℕ) :
    parseInt (derInt n ++ rest) = some (n, rest) := by
  have hassoc : derInt n ++ rest =
      2 :: (derLen (derIntContent n).length ++ (derIntContent n ++ rest)) := by
    simp [derInt, List.append_assoc]
  rw [hassoc]
  simp only [parseInt, if_pos rfl, parseLen_derLen]
  rw [if_pos trivial, if_neg (by simp only [List.length_append]; omega)]
  rw [List.take_left, List.drop_left, beToNat_derIntContent]

theorem parseComponents_componentsToDer (c : Components) :
    parseComponents (componentsToDer c) = some c := by
  have hpay : componentsToDer c =
      48 :: (derLen (derInt c.p ++ derInt c.q ++ derInt c.g).length ++
        (derInt c.p ++ derInt c.q ++ derInt c.g)) := by
    simp [componentsToDer]
  rw [hpay]
  simp only [parseComponents, if_pos rfl, parseLen_derLen]
  rw [if_pos trivial, List.append_assoc]
  simp only [parseInt_derInt]
  have hg : derInt c.g = derInt c.g ++ [] := by simp
  rw [hg]
  simp only [parseInt_derInt]
  simp

/-- Claim C1: the spec says verification computes
`v = ((g^u1 mod p) * (y^u2 mod p) mod p) mod q` and returns valid iff
`v = r`.  The code instead computes `((g^p mod u1) * (y^p mod u2) mod p)
mod q` (Montgomery moduli and exponents transposed).  At the concrete
validly-constructed key `(p,q,g,y) = (257,128,4,4)`, digest `[5]` and
signature `(r,s) = (113,1)`, the spec equations accept (`v = 113 = r`) while
the code returns `Some(false)`: the claim is right and the code is wrong. -/
theorem C1_verification_equation_bug :
    from_components ⟨257, 128, 4⟩ 4 = .ok (.ok ⟨⟨257, 128, 4⟩, 4⟩) ∧
    spec_verify ⟨⟨257, 128, 4⟩, 4⟩ [5] sig113 = true ∧
    verify_prehashed ⟨⟨257, 128, 4⟩, 4⟩ [5] sig113 = .ok (some false) :=
  ⟨rfl, rfl, rfl⟩

/-- Claim C2: verification is claimed to always terminate with a
valid/invalid outcome and never panic.  At the validly-constructed key
`(p,q,g,y) = (23,11,4,12)` and signature `(5,3)` (in range, `s` invertible),
`u1 = z·w mod q = 0` is even, so `Odd::new(u1).unwrap()` in
`verify_prehashed` panics: the claim is right and the code is wrong. -/
theorem C2_panic_on_even_u1 :
    from_components ⟨23, 11, 4⟩ 12 = .ok (.ok ⟨⟨23, 11, 4⟩, 12⟩) ∧
    verify_prehashed ⟨⟨23, 11, 4⟩, 12⟩ [] sig53 = .panic :=
  ⟨rfl, rfl⟩

/-- Claim C6: the three public entry points — raw-message `verify`,
prehashed `verify_prehash` and incremental-hash `verify_digest` — produce
identical valid/invalid results on the same effective digest bytes. -/
theorem C6_entry_points_agree (key : VerifyingKey) (sig : Signature) :
    (∀ digestBytes : List ℕ,
      verify_prehash key digestBytes sig = verify_digest key digestBytes sig) ∧
    (∀ (sha256 : List ℕ → List ℕ) (msg : List ℕ),
      verify sha256 key msg sig = verify_digest key (sha256 msg) sig) := by
  constructor
  · intro d
    rcases h : verify_prehashed key d sig with _ | o
    · simp [verify_prehash, verify_digest, h]
    · rcases o with _ | b
      · simp [verify_prehash, verify_digest, h]
      · cases b <;> simp [verify_prehash, verify_digest, h]
  · intro sha256 msg
    rfl

/-- Claim C10: the raw-message entry point always hashes with SHA-256,
regardless of the bit length of `q` (the key is universally quantified):
`verify(msg, sig)` equals `verify_digest` applied to the SHA-256 digest of
the message. -/
theorem C10_verify_uses_sha256 (sha256 : List ℕ → List ℕ) (key : VerifyingKey)
    (msg : List ℕ) (sig : Signature) :
    verify sha256 key msg sig = verify_digest key (sha256 msg) sig := rfl

/-- Claim C3: signatures with `r ≥ q` or `s ≥ q` are rejected immediately
with `Some(false)` by the first range check of `verify_prehashed`, before
the inverse or any exponentiation, and surface as invalid from
`verify_prehash`; when `s` has no inverse mod `q` (`gcd(s,q) ≠ 1`)
verification returns invalid via the failed `inv_mod`.  `r = 0` and `s = 0`
are unrepresentable in `Signature` (its components are positive
`NonZero<BoxedUint>` values), so the zero clauses hold over every
constructible signature. -/
theorem C3_reject_paths (key : VerifyingKey) (hash : List ℕ) (sig : Signature) :
    (key.components.q ≤ sig.r ∨ key.components.q ≤ sig.s →
      verify_prehashed key hash sig = .ok (some false) ∧
      verify_prehash key hash sig = .ok (.error ())) ∧
    (Nat.gcd sig.s key.components.q ≠ 1 →
      verify_prehash key hash sig = .ok (.error ())) := by
  constructor
  · intro h
    have h1 : verify_prehashed key hash sig = .ok (some false) := by
      simp only [verify_prehashed]
      rw [if_pos h]
    exact ⟨h1, by simp [verify_prehash, h1]⟩
  · intro hgcd
    by_cases hrange : key.components.q ≤ sig.r ∨ key.components.q ≤ sig.s
    · have h1 : verify_prehashed key hash sig = .ok (some false) := by
        simp only [verify_prehashed]
        rw [if_pos hrange]
      simp [verify_prehash, h1]
    · have h1 : verify_prehashed key hash sig = .ok none := by
        simp only [verify_prehashed]
        rw [if_neg hrange]
        simp [inv_mod, hgcd]
      simp [verify_prehash, h1]

/-- Witness for C3 at `q = 11` with `r = 11 ≥ q`, and at `q = 9` with
`s = 3`, `gcd(3,9) = 3 ≠ 1`. -/
theorem C3_reject_paths_witness :
    (verify_prehashed ⟨⟨23, 11, 4⟩, 12⟩ [] sig11_3 = .ok (some false) ∧
     verify_prehash ⟨⟨23, 11, 4⟩, 12⟩ [] sig11_3 = .ok (.error ())) ∧
    verify_prehash ⟨⟨23, 9, 4⟩, 12⟩ [] sig53 = .ok (.error ()) :=
  ⟨(C3_reject_paths ⟨⟨23, 11, 4⟩, 12⟩ [] sig11_3).1 (Or.inl (by decide)),
   (C3_reject_paths ⟨⟨23, 9, 4⟩, 12⟩ [] sig53).2 (by decide)⟩

/-- Claim C4: under the odd-`p` precondition (even `p` panics instead —
claim C9), `from_components` fails with an error, returning no key, iff
`y < 2` or `y^q mod p ≠ 1`; on success the returned key stores `components`
and `y` unchanged. -/
theorem C4_from_components_iff (c : Components) (y : ℕ) (hp : c.p % 2 = 1) :
    (from_components c y = .ok (.error ()) ↔ y < 2 ∨ y ^ c.q % c.p ≠ 1) ∧
    ∀ k, from_components c y = .ok (.ok k) → k.components = c ∧ k.y = y := by
  have hpe : ¬(c.p % 2 = 0) := by omega
  have hpow : (y % c.p) ^ c.q % c.p = y ^ c.q % c.p := (Nat.pow_mod y c.q c.p).symm
  constructor
  · rw [from_components, if_neg hpe, hpow]
    by_cases h2 : y < 2 ∨ y ^ c.q % c.p ≠ 1
    · rw [if_pos h2]
      simp [h2]
    · rw [if_neg h2]
      simp [h2]
  · intro k hk
    rw [from_components, if_neg hpe, hpow] at hk
    by_cases h2 : y < 2 ∨ y ^ c.q % c.p ≠ 1
    · rw [if_pos h2] at hk
      simp at hk
    · rw [if_neg h2] at hk
      simp only [PanicOr.ok.injEq, Except.ok.injEq] at hk
      rw [← hk]
      exact ⟨rfl, rfl⟩

/-- Witness for C4 at `(p,q,g) = (23,11,4)`, `y = 12`. -/
theorem C4_from_components_iff_witness :
    from_components ⟨23, 11, 4⟩ 12 = .ok (.error ()) ↔ 12 < 2 ∨ 12 ^ 11 % 23 ≠ 1 :=
  (C4_from_components_iff ⟨23, 11, 4⟩ 12 (by decide)).1

/-- Claim C5: `z` is derived from the leftmost
`min(bitlen(q)/8, len(digest))` bytes of the digest (big-endian), so two
digests of equal length agreeing on their first `bitlen(q)/8` bytes yield
identical verification results. -/
theorem C5_digest_truncation (key : VerifyingKey) (h1 h2 : List ℕ) (sig : Signature)
    (hlen : h1.length = h2.length)
    (htake : h1.take (bitlen key.components.q / 8) = h2.take (bitlen key.components.q / 8)) :
    verify_prehashed key h1 sig = verify_prehashed key h2 sig := by
  have hz : h1.take (min (bitlen key.components.q / 8) h2.length) =
      h2.take (min (bitlen key.components.q / 8) h2.length) := by
    have hmin : min (min (bitlen key.components.q / 8) h2.length)
        (bitlen key.components.q / 8) = min (bitlen key.components.q / 8) h2.length :=
      Nat.min_eq_left (Nat.min_le_left _ _)
    calc h1.take (min (bitlen key.components.q / 8) h2.length)
        = (h1.take (bitlen key.components.q / 8)).take
            (min (bitlen key.components.q / 8) h2.length) := by
          rw [List.take_take, hmin]
      _ = (h2.take (bitlen key.components.q / 8)).take
            (min (bitlen key.components.q / 8) h2.length) := by rw [htake]
      _ = h2.take (min (bitlen key.components.q / 8) h2.length) := by
          rw [List.take_take, hmin]
  simp only [verify_prehashed, hlen, hz]

/-- Witness for C5: `q = 128` has `bitlen(q)/8 = 1`, and the digests
`[5, 9]` and `[5, 7]` agree on their first byte. -/
theorem C5_digest_truncation_witness :
    verify_prehashed ⟨⟨257, 128, 4⟩, 4⟩ [5, 9] sig113 =
      verify_prehashed ⟨⟨257, 128, 4⟩, 4⟩ [5, 7] sig113 :=
  C5_digest_truncation ⟨⟨257, 128, 4⟩, 4⟩ [5, 9] [5, 7] sig113 rfl (by decide)

/-- Claim C7: encoding a validly constructed verifying key to the
public-key container and decoding it back yields the original key, with
`p`, `q`, `g` and `y` preserved exactly. -/
theorem C7_encode_decode_roundtrip (c : Components) (y : ℕ) (key : VerifyingKey)
    (h : from_components c y = .ok (.ok key)) :
    try_from (to_public_key_der key) = .ok (.ok key) := by
  rw [from_components] at h
  by_cases h1 : c.p % 2 = 0
  · rw [if_pos h1] at h; exact absurd h (by simp)
  rw [if_neg h1] at h
  by_cases h2 : y < 2 ∨ (y % c.p) ^ c.q % c.p ≠ 1
  · rw [if_pos h2] at h; exact absurd h (by simp)
  rw [if_neg h2] at h
  simp only [PanicOr.ok.injEq, Except.ok.injEq] at h
  subst h
  have hy2 : ¬y < 2 := fun hy => h2 (Or.inl hy)
  have hy0 : ¬y = 0 := by omega
  have hpi : parseInt (derInt y) = some (y, []) := by
    simpa using parseInt_derInt y []
  simp [try_from, to_public_key_der, parseComponents_componentsToDer, hpi, hy0,
    from_components, h1, h2]

/-- Witness for C7 at the key `(p,q,g,y) = (23,11,4,12)`. -/
theorem C7_encode_decode_roundtrip_witness :
    try_from (to_public_key_der ⟨⟨23, 11, 4⟩, 12⟩) = .ok (.ok ⟨⟨23, 11, 4⟩, 12⟩) :=
  C7_encode_decode_roundtrip ⟨23, 11, 4⟩ 12 ⟨⟨23, 11, 4⟩, 12⟩ rfl

/-- Claim C8: decoding a container whose algorithm identifier is not the
DSA OID always fails with a decode error (`OidUnknown`, never a silent
decode); and a subgroup-membership/lower-bound failure of
`from_components` during decode surfaces as the same `KeyMalformed` error
class that structural failures such as broken BIT STRING framing produce,
not as a distinct `InvalidKey` error. -/
theorem C8_decode_error_classes (spki : SpkiRef) :
    (spki.algorithmOid ≠ OID → try_from spki = .ok (.error .oidUnknown)) ∧
    (spki.algorithmOid = OID → spki.subjectPublicKey = none →
      ∀ paramBytes c, spki.algorithmParameters = some paramBytes →
        parseComponents paramBytes = some c →
        try_from spki = .ok (.error .keyMalformed)) ∧
    (spki.algorithmOid = OID →
      ∀ paramBytes c pkBytes yv, spki.algorithmParameters = some paramBytes →
        parseComponents paramBytes = some c →
        spki.subjectPublicKey = some pkBytes →
        parseInt pkBytes = some (yv, []) → yv ≠ 0 → c.p % 2 = 1 →
        (yv < 2 ∨ (yv % c.p) ^ c.q % c.p ≠ 1) →
        try_from spki = .ok (.error .keyMalformed)) := by
  obtain ⟨oid, params, pk⟩ := spki
  refine ⟨fun hoid => ?_, fun hoid hpk paramBytes c hparams hc => ?_,
    fun hoid paramBytes c pkBytes yv hparams hc hpk hpi hyv hp hfail => ?_⟩
  · simp [try_from, hoid]
  · subst hoid hpk hparams
    simp [try_from, hc]
  · subst hoid hparams hpk
    have hpe : ¬c.p % 2 = 0 := by omega
    simp [try_from, hc, hpi, hyv, from_components, hpe, hfail]

/-- Witness for C8: a wrong OID `[9,9]`, a broken BIT STRING framing
(`none`), and `y = 5` which fails the subgroup check for
`(p,q,g) = (23,11,4)` (`5^11 mod 23 = 22 ≠ 1`). -/
theorem C8_decode_error_classes_witness :
    try_from ⟨[9, 9], some (componentsToDer ⟨23, 11, 4⟩), some (derInt 12)⟩ =
      .ok (.error .oidUnknown) ∧
    try_from ⟨OID, some (componentsToDer ⟨23, 11, 4⟩), none⟩ =
      .ok (.error .keyMalformed) ∧
    try_from ⟨OID, some (componentsToDer ⟨23, 11, 4⟩), some (derInt 5)⟩ =
      .ok (.error .keyMalformed) :=
  ⟨(C8_decode_error_classes _).1 (by decide),
   (C8_decode_error_classes _).2.1 rfl rfl (componentsToDer ⟨23, 11, 4⟩) ⟨23, 11, 4⟩
     rfl (by decide),
   (C8_decode_error_classes _).2.2 rfl (componentsToDer ⟨23, 11, 4⟩) ⟨23, 11, 4⟩
     (derInt 5) 5 rfl (by decide) rfl (by decide) (by decide) (by decide) (by decide)⟩

/-- Claim C9: `from_components` is total only for odd `p`: with an even
`p` the `Odd::new(p).unwrap()` panics instead of returning `InvalidKey`,
and the panic is reachable from an attacker-supplied decoded container. -/
theorem C9_even_p_panic (c : Components) (y : ℕ) (hp : c.p % 2 = 0) (hy : y ≠ 0) :
    from_components c y = .panic ∧
    try_from ⟨OID, some (componentsToDer c), some (derInt y)⟩ = .panic := by
  have h1 : from_components c y = .panic := by rw [from_components, if_pos hp]
  refine ⟨h1, ?_⟩
  have hpi : parseInt (derInt y) = some (y, []) := by
    simpa using parseInt_derInt y []
  simp [try_from, parseComponents_componentsToDer, hpi, hy, h1]

/-- Witness for C9 at `(p,q,g) = (4,3,2)`, `y = 5`. -/
theorem C9_even_p_panic_witness :
    from_components ⟨4, 3, 2⟩ 5 = .panic ∧
    try_from ⟨OID, some (componentsToDer ⟨4, 3, 2⟩), some (derInt 5)⟩ = .panic :=
  C9_even_p_panic ⟨4, 3, 2⟩ 5 (by decide) (by decide)
